import Mathlib

/-!
Shallow embedding of `src/spreadbot.py` (selenkaonchain/spreadbot).

Modelling conventions:
* Python floats are modelled as rationals (`ℚ`); all arithmetic in the bot is
  plain field arithmetic and comparisons, so `ℚ` is faithful for every gate.
* The snapshot store `MarketState.data` (a Python dict `str -> dict`) is an
  association list `StoreData`; dict assignment replaces the value in place
  when the key exists and appends otherwise, which matches insertion-ordered
  Python dicts.
* Snapshots are typed records carrying exactly the five keys that
  `MarketState.update` writes (`volume`, `best_bid`, `best_ask`, `last_seen`,
  `persistence`), so `prev["volume"]` and `prev.get("persistence", d)` both
  become plain field reads.
* `time.time()` is an external clock, passed in as an explicit `now : ℚ`.
* JSON serialization done by the external `json` module is modelled by a JSON
  AST `Json`; `json.dump`/`json.load` of a well-formed value is the identity
  on that AST, and a file that raises in `json.load` is a distinct
  `FileState.malformed` state.
* Python truthiness: `if not prev` on an optional snapshot dict is `none`
  (snapshots written by the program are never empty dicts), and `if score:`
  on an optional float is true exactly when the value is present and nonzero.
-/

/-- A JSON value, as far as the persisted store needs: the backing file holds
an object of objects of numbers. -/
inductive Json where
  | num : ℚ → Json
  | str : String → Json
  | obj : List (String × Json) → Json

/-- One persisted per-market snapshot: the dict literal written by
`MarketState.update` (src/spreadbot.py lines 98-104). -/
structure MarketSnapshot where
  volume : ℚ
  best_bid : ℚ
  best_ask : ℚ
  last_seen : ℚ
  persistence : ℤ
deriving DecidableEq

/-- The `Market` dataclass (src/spreadbot.py lines 67-76). -/
structure Market where
  id : String
  question : String
  volume : ℚ
  best_bid : ℚ
  best_ask : ℚ
  spread : ℚ
  event_slug : Option String
  group_item_title : Option String
deriving DecidableEq

/-- The gate-relevant part of the frozen `Config` dataclass
(src/spreadbot.py lines 21-45). -/
structure Config where
  MIN_VOLUME : ℚ
  MIN_SPREAD : ℚ
  MAX_SPREAD : ℚ
  MIN_VOLUME_DELTA : ℚ
  MIN_PRICE_MOVE : ℚ
  PERSISTENCE_CYCLES : ℤ
  MAX_ALERTS_PER_CYCLE : ℕ

/-- The dataclass defaults of `Config` (src/spreadbot.py lines 28-36). -/
def defaultConfig : Config :=
  { MIN_VOLUME := 100000
    MIN_SPREAD := 5 / 100
    MAX_SPREAD := 5 / 10
    MIN_VOLUME_DELTA := 0
    MIN_PRICE_MOVE := 0
    PERSISTENCE_CYCLES := 1
    MAX_ALERTS_PER_CYCLE := 6 }

/-- `MarketState.data`: the id-to-snapshot mapping. -/
abbrev StoreData := List (String × MarketSnapshot)

/-- `MarketState.get` / `self.data.get(market_id)` (src/spreadbot.py
lines 106-107). -/
def MarketState.get : StoreData → String → Option MarketSnapshot
  | [], _ => none
  | (k, v) :: rest, i => if k = i then some v else MarketState.get rest i

/-- Python dict assignment `self.data[m.id] = snap`: replace in place if the
key exists, else append. -/
def storeInsert : StoreData → String → MarketSnapshot → StoreData
  | [], i, snap => [(i, snap)]
  | (k, v) :: rest, i, snap =>
      if k = i then (i, snap) :: rest else (k, v) :: storeInsert rest i snap

/-- `MarketState.update` (src/spreadbot.py lines 96-104). `now` stands for
`time.time()`. -/
def MarketState.update (now : ℚ) (st : StoreData) (m : Market) : StoreData :=
  let prev := MarketState.get st m.id
  storeInsert st m.id
    { volume := m.volume
      best_bid := m.best_bid
      best_ask := m.best_ask
      last_seen := now
      persistence := match prev with
        | some p => p.persistence + 1
        | none => 1 }

/-- Serialization of one snapshot: the dict literal that `json.dump` receives
for one market (src/spreadbot.py lines 98-104). -/
def MarketSnapshot.toJson (s : MarketSnapshot) : Json :=
  Json.obj
    [(("volume"), Json.num s.volume),
     (("best_bid"), Json.num s.best_bid),
     (("best_ask"), Json.num s.best_ask),
     (("last_seen"), Json.num s.last_seen),
     (("persistence"), Json.num (s.persistence : ℚ))]

/-- Key lookup in a JSON object, as Python dict indexing on loaded JSON. -/
def jsonGet : List (String × Json) → String → Option Json
  | [], _ => none
  | (k, v) :: rest, i => if k = i then some v else jsonGet rest i

/-- Read one numeric field of a loaded JSON object. -/
def jsonNum (l : List (String × Json)) (k : String) : Option ℚ :=
  match jsonGet l k with
  | some (Json.num q) => some q
  | _ => none

/-- Deserialization of one snapshot from loaded JSON: reading back the five
fields the program consumes (`prev["volume"]`, `prev["best_bid"]`,
`prev["best_ask"]`, `last_seen`, `persistence`). -/
def MarketSnapshot.fromJson : Json → Option MarketSnapshot
  | Json.obj l =>
      match jsonNum l ("volume"), jsonNum l ("best_bid"), jsonNum l ("best_ask"),
            jsonNum l ("last_seen"), jsonNum l ("persistence") with
      | some v, some bb, some ba, some ls, some p =>
          if p.den = 1 then
            some { volume := v, best_bid := bb, best_ask := ba,
                   last_seen := ls, persistence := p.num }
          else none
      | _, _, _, _, _ => none
  | _ => none

/-- `MarketState.save` (src/spreadbot.py lines 92-94): `json.dump(self.data)`,
modelled as producing the JSON AST of the whole map. -/
def MarketState.save (data : StoreData) : Json :=
  Json.obj (data.map fun p => (p.1, p.2.toJson))

/-- Deserialization of a whole store from loaded JSON entries. -/
def loadEntries : List (String × Json) → Option StoreData
  | [] => some []
  | (k, j) :: rest =>
      match MarketSnapshot.fromJson j, loadEntries rest with
      | some s, some r => some ((k, s) :: r)
      | _, _ => none

/-- Deserialization of a whole store from loaded JSON. -/
def MarketState.loadData : Json → Option StoreData
  | Json.obj l => loadEntries l
  | _ => none

/-- The three conditions `MarketState._load` (src/spreadbot.py lines 86-90)
distinguishes: the backing file is absent, present but `json.load` raises, or
present with JSON content `j`. -/
inductive FileState where
  | missing : FileState
  | malformed : FileState
  | parsed : Json → FileState

/-- `MarketState._load` (src/spreadbot.py lines 86-90): a missing file yields
the empty map `{}`; a file that `json.load` cannot parse raises, and nothing
catches it, so construction fails (`Except.error`); otherwise the loaded JSON
is returned as-is. -/
def MarketState.load : FileState → Except Unit Json
  | FileState.missing => Except.ok (Json.obj [])
  | FileState.malformed => Except.error ()
  | FileState.parsed j => Except.ok j

/-- One raw upstream field as `float(raw.get(key, default))` sees it: absent,
coercible to a float with value `q`, or present but not coercible (so
`float()` raises). -/
inductive RawField where
  | missing : RawField
  | numeric : ℚ → RawField
  | nonNumeric : RawField
deriving DecidableEq

/-- `float(raw.get(key, default))`: the default when the key is absent, the
value when coercible, failure (caught by `parse`) otherwise. -/
def coerceFloat : RawField → ℚ → Option ℚ
  | RawField.missing, d => some d
  | RawField.numeric q, _ => some q
  | RawField.nonNumeric, _ => none

/-- One raw upstream record, restricted to the fields `parse` reads.
`id := none` models `raw["id"]` raising `KeyError`; `events` is the list of
`.get("slug")` results of the entries of `raw.get("events", [])`. -/
structure RawRecord where
  id : Option String
  question : Option String
  bestBid : RawField
  bestAsk : RawField
  spreadField : RawField
  volumeNum : RawField
  events : List (Option String)
  groupItemTitle : Option String

/-- `LiveSpreadBot.parse` (src/spreadbot.py lines 170-196): any coercion
failure or missing id is caught by the `except` and yields `None`. -/
def LiveSpreadBot.parse (raw : RawRecord) : Option Market :=
  match coerceFloat raw.bestBid 0 with
  | none => none
  | some bid =>
    match coerceFloat raw.bestAsk 1 with
    | none => none
    | some ask =>
      match coerceFloat raw.spreadField 0 with
      | none => none
      | some sp =>
        let spread := max sp (ask - bid)
        let event_slug := match raw.events with
          | [] => none
          | e :: _ => e
        match raw.id with
        | none => none
        | some i =>
          match coerceFloat raw.volumeNum 0 with
          | none => none
          | some vol =>
            some { id := i
                   question := raw.question.getD ("No title")
                   volume := vol
                   best_bid := bid
                   best_ask := ask
                   spread := spread
                   event_slug := event_slug
                   group_item_title := raw.groupItemTitle }

/-- The threshold-gate block of `LiveSpreadBot.is_live`
(src/spreadbot.py lines 230-241), over the five gated values. -/
def gateEval (cfg : Config) (volume_delta price_move : ℚ) (persistence : ℤ)
    (volume spread : ℚ) : Option ℚ :=
  if volume_delta < cfg.MIN_VOLUME_DELTA then none
  else if price_move < cfg.MIN_PRICE_MOVE then none
  else if persistence < cfg.PERSISTENCE_CYCLES then none
  else if volume < cfg.MIN_VOLUME then none
  else if ¬ (cfg.MIN_SPREAD ≤ spread ∧ spread ≤ cfg.MAX_SPREAD) then none
  else some (volume_delta * price_move * spread)

/-- `LiveSpreadBot.is_live` (src/spreadbot.py lines 221-241). -/
def isLive (cfg : Config) (st : StoreData) (m : Market) : Option ℚ :=
  match MarketState.get st m.id with
  | none => none
  | some prev =>
    let volume_delta := m.volume - prev.volume
    let price_move := |m.best_bid - prev.best_bid| + |m.best_ask - prev.best_ask|
    let persistence := prev.persistence
    if volume_delta < cfg.MIN_VOLUME_DELTA then none
    else if price_move < cfg.MIN_PRICE_MOVE then none
    else if persistence < cfg.PERSISTENCE_CYCLES then none
    else if m.volume < cfg.MIN_VOLUME then none
    else if ¬ (cfg.MIN_SPREAD ≤ m.spread ∧ m.spread ≤ cfg.MAX_SPREAD) then none
    else some (volume_delta * price_move * m.spread)

/-- The body of the per-record loop of `LiveSpreadBot.run_once`
(src/spreadbot.py lines 246-255), threading (store, collected pairs):
skip unparsable records; otherwise score against the current store, update
the store, and append `(score, m)` when `score` is truthy (present and
nonzero). -/
def LiveSpreadBot.step (cfg : Config) (now : ℚ)
    (p : StoreData × List (ℚ × Market)) (raw : RawRecord) :
    StoreData × List (ℚ × Market) :=
  match LiveSpreadBot.parse raw with
  | none => p
  | some m =>
    let score := isLive cfg p.1 m
    let st := MarketState.update now p.1 m
    match score with
    | some s => if s = 0 then (st, p.2) else (st, p.2 ++ [(s, m)])
    | none => (st, p.2)

/-- The store after processing a list of raw records: each valid observation
updates the store, invalid records are skipped. -/
def updateAll (now : ℚ) (st : StoreData) (raws : List RawRecord) : StoreData :=
  raws.foldl
    (fun s raw =>
      match LiveSpreadBot.parse raw with
      | some m => MarketState.update now s m
      | none => s)
    st

/-- The contribution of one scored observation to the collected list:
`if score: live_markets.append((score, m))`. -/
def scoreContrib (score : Option ℚ) (m : Market) : List (ℚ × Market) :=
  match score with
  | some s => if s = 0 then [] else [(s, m)]
  | none => []

/-- The ranking/truncation step of `LiveSpreadBot.run_once`
(src/spreadbot.py lines 263-264): stable sort descending by score, then take
the first `MAX_ALERTS_PER_CYCLE`. -/
def selectAlerts (cfg : Config) (pairs : List (ℚ × Market)) :
    List (ℚ × Market) :=
  (pairs.mergeSort fun a b => decide (b.1 ≤ a.1)).take cfg.MAX_ALERTS_PER_CYCLE

/-- `LiveSpreadBot.run_once` (src/spreadbot.py lines 243-266), as a function
of the cycle's fetched records: the final store (flushed by `save`) and the
ordered alert list handed to the notifier. -/
def LiveSpreadBot.runOnce (cfg : Config) (now : ℚ) (st : StoreData)
    (raws : List RawRecord) : StoreData × List (ℚ × Market) :=
  let p := raws.foldl (LiveSpreadBot.step cfg now) (st, [])
  (p.1, selectAlerts cfg p.2)

/-- A sequence of `MarketState.update` calls, one per cycle, each with its
observation and its `time.time()` value. -/
def applyUpdates (st : StoreData) : List (Market × ℚ) → StoreData
  | [] => st
  | (m, t) :: rest => applyUpdates (MarketState.update t st m) rest

/-- The prior snapshot of the worked example in the specification:
volume 100000, bid 0.40, ask 0.45, persistence 2. -/
def exPrev : MarketSnapshot :=
  { volume := 100000, best_bid := 2 / 5, best_ask := 9 / 20,
    last_seen := 0, persistence := 2 }

/-- The new observation of the worked example in the specification:
volume 150000, bid 0.30, ask 0.60, spread 0.30. -/
def exObs : Market :=
  { id := ("m1"), question := ("q"), volume := 150000, best_bid := 3 / 10,
    best_ask := 3 / 5, spread := 3 / 10, event_slug := none,
    group_item_title := none }

/-- A store holding only the worked example's prior snapshot under id m1. -/
def exStore : StoreData := [(("m1"), exPrev)]

/-- A malformed raw record: the id key is absent, so `raw["id"]` raises. -/
def badRaw : RawRecord :=
  { id := none, question := none, bestBid := RawField.numeric (3 / 10),
    bestAsk := RawField.numeric (3 / 5), spreadField := RawField.missing,
    volumeNum := RawField.numeric 150000, events := [], groupItemTitle := none }

/-- A well-formed raw record for id m1 matching the worked example's new
observation. -/
def goodRaw : RawRecord :=
  { id := some ("m1"), question := some ("q"),
    bestBid := RawField.numeric (3 / 10),
    bestAsk := RawField.numeric (3 / 5), spreadField := RawField.missing,
    volumeNum := RawField.numeric 150000, events := [], groupItemTitle := none }

/-- A raw record in which every optional numeric field is absent, exercising
the parser's defaults. -/
def rawDefaults : RawRecord :=
  { id := some ("m2"), question := none, bestBid := RawField.missing,
    bestAsk := RawField.missing, spreadField := RawField.missing,
    volumeNum := RawField.missing, events := [], groupItemTitle := none }

/-- The observation `parse` produces from `rawDefaults`: bid defaults to 0,
ask defaults to 1, spread to max(0, 1 - 0) = 1. -/
def mDefaults : Market :=
  { id := ("m2"), question := ("No title"), volume := 0, best_bid := 0,
    best_ask := 1, spread := 1, event_slug := none, group_item_title := none }

/-- A snapshot identical to the worked example's observation values, used to
exhibit a zero-delta cycle. -/
def zeroPrev : MarketSnapshot :=
  { volume := 150000, best_bid := 3 / 10, best_ask := 3 / 5,
    last_seen := 0, persistence := 1 }

/-- A store in which id m1 was last seen exactly at the current observation's
values, so both deltas vanish. -/
def zeroStore : StoreData := [(("m1"), zeroPrev)]

-- ==================== helper lemmas ====================

theorem MarketState.get_storeInsert_self (st : StoreData) (i : String)
    (snap : MarketSnapshot) :
    MarketState.get (storeInsert st i snap) i = some snap := by
  induction st with
  | nil => simp [storeInsert, MarketState.get]
  | cons hd tl ih =>
      by_cases h : hd.1 = i <;>
        simp [storeInsert, MarketState.get, h, ih]

theorem MarketState.get_storeInsert_ne (st : StoreData) (i j : String)
    (snap : MarketSnapshot) (h : j ≠ i) :
    MarketState.get (storeInsert st i snap) j = MarketState.get st j := by
  induction st with
  | nil => simp [storeInsert, MarketState.get, Ne.symm h]
  | cons hd tl ih =>
      obtain ⟨k, v⟩ := hd
      by_cases hk : k = i
      · subst hk
        simp [storeInsert, MarketState.get, Ne.symm h]
      · simp [storeInsert, hk, MarketState.get, ih]

theorem MarketState.get_update_self (now : ℚ) (st : StoreData) (m : Market) :
    MarketState.get (MarketState.update now st m) m.id =
      some { volume := m.volume, best_bid := m.best_bid, best_ask := m.best_ask,
             last_seen := now,
             persistence := match MarketState.get st m.id with
               | some p => p.persistence + 1
               | none => 1 } := by
  unfold MarketState.update
  exact MarketState.get_storeInsert_self st m.id _

theorem gateEval_none_iff (cfg : Config) (vd pm : ℚ) (pers : ℤ) (vol sp : ℚ) :
    gateEval cfg vd pm pers vol sp = none ↔
      (vd < cfg.MIN_VOLUME_DELTA ∨ pm < cfg.MIN_PRICE_MOVE ∨
       pers < cfg.PERSISTENCE_CYCLES ∨ vol < cfg.MIN_VOLUME ∨
       ¬ (cfg.MIN_SPREAD ≤ sp ∧ sp ≤ cfg.MAX_SPREAD)) := by
  unfold gateEval
  split_ifs with h1 h2 h3 h4 h5 <;> simp_all

theorem gateEval_ne_none_iff (cfg : Config) (vd pm : ℚ) (pers : ℤ) (vol sp : ℚ) :
    gateEval cfg vd pm pers vol sp ≠ none ↔
      (cfg.MIN_VOLUME_DELTA ≤ vd ∧ cfg.MIN_PRICE_MOVE ≤ pm ∧
       cfg.PERSISTENCE_CYCLES ≤ pers ∧ cfg.MIN_VOLUME ≤ vol ∧
       cfg.MIN_SPREAD ≤ sp ∧ sp ≤ cfg.MAX_SPREAD) := by
  rw [Ne, gateEval_none_iff]
  push_neg
  tauto

theorem gateEval_pass (cfg : Config) (vd pm : ℚ) (pers : ℤ) (vol sp : ℚ)
    (h : cfg.MIN_VOLUME_DELTA ≤ vd ∧ cfg.MIN_PRICE_MOVE ≤ pm ∧
         cfg.PERSISTENCE_CYCLES ≤ pers ∧ cfg.MIN_VOLUME ≤ vol ∧
         cfg.MIN_SPREAD ≤ sp ∧ sp ≤ cfg.MAX_SPREAD) :
    gateEval cfg vd pm pers vol sp = some (vd * pm * sp) := by
  obtain ⟨h1, h2, h3, h4, h5, h6⟩ := h
  unfold gateEval
  rw [if_neg (not_lt.mpr h1), if_neg (not_lt.mpr h2), if_neg (not_lt.mpr h3),
      if_neg (not_lt.mpr h4), if_neg (not_not_intro ⟨h5, h6⟩)]

theorem gateEval_eq_some (cfg : Config) (vd pm : ℚ) (pers : ℤ) (vol sp : ℚ)
    (s : ℚ) (h : gateEval cfg vd pm pers vol sp = some s) :
    (cfg.MIN_VOLUME_DELTA ≤ vd ∧ cfg.MIN_PRICE_MOVE ≤ pm ∧
     cfg.PERSISTENCE_CYCLES ≤ pers ∧ cfg.MIN_VOLUME ≤ vol ∧
     cfg.MIN_SPREAD ≤ sp ∧ sp ≤ cfg.MAX_SPREAD) ∧ s = vd * pm * sp := by
  have hne : gateEval cfg vd pm pers vol sp ≠ none := by simp [h]
  have hg := (gateEval_ne_none_iff cfg vd pm pers vol sp).mp hne
  refine ⟨hg, ?_⟩
  have := gateEval_pass cfg vd pm pers vol sp hg
  rw [this] at h
  exact (Option.some.injEq _ _).mp h.symm

theorem isLive_eq_gateEval (cfg : Config) (st : StoreData) (m : Market)
    (prev : MarketSnapshot) (hprev : MarketState.get st m.id = some prev) :
    isLive cfg st m =
      gateEval cfg (m.volume - prev.volume)
        (|m.best_bid - prev.best_bid| + |m.best_ask - prev.best_ask|)
        prev.persistence m.volume m.spread := by
  unfold isLive gateEval
  rw [hprev]

-- ==================== claim theorems ====================

/-- C1: for an observation whose id has a prior snapshot, `is_live` returns a
non-absent score if and only if all threshold gates pass
(volume_delta ≥ MIN_VOLUME_DELTA, price_move ≥ MIN_PRICE_MOVE,
prior persistence ≥ PERSISTENCE_CYCLES, volume ≥ MIN_VOLUME, and spread inside
[MIN_SPREAD, MAX_SPREAD] inclusive); when non-absent the score equals
volume_delta * price_move * spread; and in the gate block of `is_live`
(`gateEval`), lowering any single gated value below its threshold while
holding the other gated values fixed switches the result to absent. -/
theorem isLive_gate_characterization (cfg : Config) (st : StoreData)
    (m : Market) (prev : MarketSnapshot)
    (hprev : MarketState.get st m.id = some prev) :
    (isLive cfg st m ≠ none ↔
      (cfg.MIN_VOLUME_DELTA ≤ m.volume - prev.volume ∧
       cfg.MIN_PRICE_MOVE ≤ |m.best_bid - prev.best_bid| + |m.best_ask - prev.best_ask| ∧
       cfg.PERSISTENCE_CYCLES ≤ prev.persistence ∧
       cfg.MIN_VOLUME ≤ m.volume ∧
       cfg.MIN_SPREAD ≤ m.spread ∧ m.spread ≤ cfg.MAX_SPREAD)) ∧
    (isLive cfg st m ≠ none →
      isLive cfg st m = some ((m.volume - prev.volume) *
        (|m.best_bid - prev.best_bid| + |m.best_ask - prev.best_ask|) * m.spread)) ∧
    (∀ vd pm : ℚ, ∀ pers : ℤ, ∀ vol sp : ℚ,
      (vd < cfg.MIN_VOLUME_DELTA → gateEval cfg vd pm pers vol sp = none) ∧
      (pm < cfg.MIN_PRICE_MOVE → gateEval cfg vd pm pers vol sp = none) ∧
      (pers < cfg.PERSISTENCE_CYCLES → gateEval cfg vd pm pers vol sp = none) ∧
      (vol < cfg.MIN_VOLUME → gateEval cfg vd pm pers vol sp = none) ∧
      (sp < cfg.MIN_SPREAD → gateEval cfg vd pm pers vol sp = none) ∧
      (cfg.MAX_SPREAD < sp → gateEval cfg vd pm pers vol sp = none)) ∧
    isLive cfg st m =
      gateEval cfg (m.volume - prev.volume)
        (|m.best_bid - prev.best_bid| + |m.best_ask - prev.best_ask|)
        prev.persistence m.volume m.spread := by
  have he := isLive_eq_gateEval cfg st m prev hprev
  refine ⟨?_, ?_, ?_, he⟩
  · rw [he]
    exact gateEval_ne_none_iff cfg _ _ _ _ _
  · intro hne
    rw [he] at hne ⊢
    exact gateEval_pass cfg _ _ _ _ _ ((gateEval_ne_none_iff cfg _ _ _ _ _).mp hne)
  · intro vd pm pers vol sp
    refine ⟨fun hlt => ?_, fun hlt => ?_, fun hlt => ?_, fun hlt => ?_,
            fun hlt => ?_, fun hlt => ?_⟩ <;> rw [gateEval_none_iff]
    · exact Or.inl hlt
    · exact Or.inr (Or.inl hlt)
    · exact Or.inr (Or.inr (Or.inl hlt))
    · exact Or.inr (Or.inr (Or.inr (Or.inl hlt)))
    · exact Or.inr (Or.inr (Or.inr (Or.inr
        fun hc => absurd hc.1 (not_le.mpr hlt))))
    · exact Or.inr (Or.inr (Or.inr (Or.inr
        fun hc => absurd hc.2 (not_le.mpr hlt))))

/-- Witness for C1, on the specification's worked example: prior snapshot
volume 100000, bid 0.40, ask 0.45, persistence 2; new observation volume
150000, bid 0.30, ask 0.60, spread 0.30; under the default thresholds the
score is 50000 * 0.25 * 0.30 = 3750. -/
theorem isLive_gate_characterization_witness :
    MarketState.get exStore exObs.id = some exPrev ∧
    isLive defaultConfig exStore exObs = some 3750 := by
  have hprev : MarketState.get exStore exObs.id = some exPrev := rfl
  have h := isLive_gate_characterization defaultConfig exStore exObs exPrev hprev
  have habs : (0 : ℚ) ≤
      |exObs.best_bid - exPrev.best_bid| + |exObs.best_ask - exPrev.best_ask| := by
    positivity
  have hg : defaultConfig.MIN_VOLUME_DELTA ≤ exObs.volume - exPrev.volume ∧
      defaultConfig.MIN_PRICE_MOVE ≤
        |exObs.best_bid - exPrev.best_bid| + |exObs.best_ask - exPrev.best_ask| ∧
      defaultConfig.PERSISTENCE_CYCLES ≤ exPrev.persistence ∧
      defaultConfig.MIN_VOLUME ≤ exObs.volume ∧
      defaultConfig.MIN_SPREAD ≤ exObs.spread ∧
      exObs.spread ≤ defaultConfig.MAX_SPREAD := by
    refine ⟨by norm_num [defaultConfig, exObs, exPrev], ?_,
            by norm_num [defaultConfig, exPrev],
            by norm_num [defaultConfig, exObs],
            by norm_num [defaultConfig, exObs],
            by norm_num [defaultConfig, exObs]⟩
    simpa [defaultConfig] using habs
  have h2 := h.2.1 (h.1.mpr hg)
  refine ⟨hprev, ?_⟩
  rw [h2]
  have e1 : |exObs.best_bid - exPrev.best_bid| = 1 / 10 := by
    rw [show exObs.best_bid - exPrev.best_bid = -(1 / 10) by
      norm_num [exObs, exPrev]]
    rw [abs_neg]
    exact abs_of_nonneg (by norm_num)
  have e2 : |exObs.best_ask - exPrev.best_ask| = 3 / 20 := by
    rw [show exObs.best_ask - exPrev.best_ask = 3 / 20 by
      norm_num [exObs, exPrev]]
    exact abs_of_nonneg (by norm_num)
  rw [e1, e2]
  norm_num [exObs, exPrev]

/-- C4: an observation whose market id has no entry in the snapshot store is
never scored: `is_live` returns absent regardless of the observation's values
and of the configuration. -/
theorem isLive_first_sighting (cfg : Config) (st : StoreData) (m : Market)
    (h : MarketState.get st m.id = none) : isLive cfg st m = none := by
  unfold isLive
  rw [h]

/-- Witness for C4: the worked example's observation against an empty store. -/
theorem isLive_first_sighting_witness :
    isLive defaultConfig [] exObs = none :=
  isLive_first_sighting defaultConfig [] exObs rfl

theorem applyUpdates_persistence_aux (l : List (Market × ℚ)) :
    ∀ (st : StoreData) (mid : String) (k : ℤ),
      (∀ p ∈ l, (p.1).id = mid) →
      ((MarketState.get st mid = none ∧ k = 0) ∨
        (∃ s, MarketState.get st mid = some s ∧ s.persistence = k)) →
      l = [] ∨ ∃ snap, MarketState.get (applyUpdates st l) mid = some snap ∧
        snap.persistence = k + l.length := by
  induction l with
  | nil => intro st mid k _ _; exact Or.inl rfl
  | cons hd tl ih =>
      intro st mid k hids hk
      right
      obtain ⟨m, t⟩ := hd
      have hmid : m.id = mid := hids (m, t) (List.mem_cons_self _ _)
      have hget := MarketState.get_update_self t st m
      have hpers : (match MarketState.get st m.id with
          | some p => p.persistence + 1
          | none => (1 : ℤ)) = k + 1 := by
        rcases hk with ⟨hnone, hk0⟩ | ⟨s, hs, hsp⟩
        · rw [hmid, hnone]
          subst hk0
          show (1 : ℤ) = 0 + 1
          norm_num
        · rw [hmid, hs]
          show s.persistence + 1 = k + 1
          rw [hsp]
      have hbase : ∃ s, MarketState.get (MarketState.update t st m) mid = some s ∧
          s.persistence = k + 1 := by
        refine ⟨{ volume := m.volume, best_bid := m.best_bid,
                  best_ask := m.best_ask, last_seen := t,
                  persistence := match MarketState.get st m.id with
                    | some p => p.persistence + 1
                    | none => 1 }, ?_, hpers⟩
        rw [← hmid]
        exact hget
      have hnext := ih (MarketState.update t st m) mid (k + 1)
        (fun p hp => hids p (List.mem_cons_of_mem _ hp)) (Or.inr hbase)
      rcases hnext with htl | ⟨snap, hsnap, hp⟩
      · subst htl
        obtain ⟨s, hs, hsp⟩ := hbase
        exact ⟨s, hs, by simpa using hsp⟩
      · refine ⟨snap, by simpa [applyUpdates] using hsnap, ?_⟩
        rw [hp]
        simp only [List.length_cons]
        push_cast
        ring

/-- C3: starting from a store with no entry for a market id, applying
`MarketState.update` once per cycle for the first n of a run of consecutive
cycles (n ≥ 1) leaves a stored snapshot whose persistence counter equals
exactly n — hence the counter is 1 after the first update, is monotonically
non-decreasing across the run, and every stored entry created this way has
persistence ≥ 1. -/
theorem update_persistence_counts (st : StoreData) (mid : String)
    (l : List (Market × ℚ)) (h0 : MarketState.get st mid = none)
    (hids : ∀ p ∈ l, (p.1).id = mid) (n : ℕ) (h1 : 1 ≤ n)
    (hn : n ≤ l.length) :
    ∃ snap, MarketState.get (applyUpdates st (l.take n)) mid = some snap ∧
      snap.persistence = n ∧ 1 ≤ snap.persistence := by
  have h := applyUpdates_persistence_aux (l.take n) st mid 0
    (fun p hp => hids p (List.mem_of_mem_take hp)) (Or.inl ⟨h0, rfl⟩)
  rcases h with hemp | ⟨snap, hs, hp⟩
  · rcases List.take_eq_nil_iff.mp hemp with h | h
    · omega
    · subst h
      simp at hn
      omega
  · have hlen : (l.take n).length = n := by
      rw [List.length_take]
      omega
    refine ⟨snap, hs, ?_, ?_⟩ <;> rw [hp, hlen] <;> omega

/-- Witness for C3: updating an empty store twice for id m1 leaves
persistence 2. -/
theorem update_persistence_counts_witness :
    ∃ snap,
      MarketState.get (applyUpdates [] ([(exObs, 0), (exObs, 1)].take 2)) ("m1")
        = some snap ∧ snap.persistence = (2 : ℕ) ∧ 1 ≤ snap.persistence := by
  refine update_persistence_counts [] ("m1") [(exObs, 0), (exObs, 1)] rfl
    ?_ 2 ?_ ?_
  · intro p hp
    simp only [List.mem_cons, List.not_mem_nil, or_false] at hp
    rcases hp with rfl | rfl <;> rfl
  · omega
  · simp

/-- C8: at construction, `_load` returns the empty map when the backing file
is missing (and the empty JSON map decodes to the empty store), propagates the
parse failure when the file exists but cannot be parsed, and otherwise returns
the parsed content unchanged. -/
theorem load_missing_tolerant_corrupt_fatal :
    MarketState.load FileState.missing = Except.ok (Json.obj []) ∧
    MarketState.loadData (Json.obj []) = some [] ∧
    MarketState.load FileState.malformed = Except.error () ∧
    ∀ j, MarketState.load (FileState.parsed j) = Except.ok j :=
  ⟨rfl, rfl, rfl, fun _ => rfl⟩

theorem fromJson_toJson (s : MarketSnapshot) :
    MarketSnapshot.fromJson s.toJson = some s := by
  simp [MarketSnapshot.toJson, MarketSnapshot.fromJson, jsonNum, jsonGet]

/-- C9: serializing any snapshot map with `save` and deserializing the result
reproduces an identical snapshot map. -/
theorem save_load_roundtrip (data : StoreData) :
    MarketState.loadData (MarketState.save data) = some data := by
  unfold MarketState.save MarketState.loadData
  induction data with
  | nil => rfl
  | cons hd tl ih =>
      simp only [List.map_cons, loadEntries, fromJson_toJson]
      simp only [List.map] at ih
      rw [ih]

theorem parse_eq_some_iff (raw : RawRecord) (m : Market) :
    LiveSpreadBot.parse raw = some m ↔
      ∃ bid ask sp i vol,
        coerceFloat raw.bestBid 0 = some bid ∧
        coerceFloat raw.bestAsk 1 = some ask ∧
        coerceFloat raw.spreadField 0 = some sp ∧
        raw.id = some i ∧
        coerceFloat raw.volumeNum 0 = some vol ∧
        m = { id := i, question := raw.question.getD ("No title"),
              volume := vol, best_bid := bid, best_ask := ask,
              spread := max sp (ask - bid),
              event_slug := match raw.events with
                | [] => none
                | e :: _ => e,
              group_item_title := raw.groupItemTitle } := by
  unfold LiveSpreadBot.parse
  cases hb : coerceFloat raw.bestBid 0 <;>
    cases ha : coerceFloat raw.bestAsk 1 <;>
      cases hs : coerceFloat raw.spreadField 0 <;>
        cases hi : raw.id <;>
          cases hv : coerceFloat raw.volumeNum 0 <;>
            simp [eq_comm]

/-- C6: whenever `parse` accepts a raw record, the produced observation has
best_bid equal to the bid field (0 when absent), best_ask equal to the ask
field (1 when absent), and spread equal to the maximum of the reported spread
field (0 when absent) and best_ask minus best_bid. -/
theorem parse_quote_defaults (raw : RawRecord) (m : Market)
    (h : LiveSpreadBot.parse raw = some m) :
    (raw.bestBid = RawField.missing → m.best_bid = 0) ∧
    (∀ q, raw.bestBid = RawField.numeric q → m.best_bid = q) ∧
    (raw.bestAsk = RawField.missing → m.best_ask = 1) ∧
    (∀ q, raw.bestAsk = RawField.numeric q → m.best_ask = q) ∧
    (∀ s0, coerceFloat raw.spreadField 0 = some s0 →
      m.spread = max s0 (m.best_ask - m.best_bid)) := by
  rw [parse_eq_some_iff] at h
  obtain ⟨bid, ask, sp, i, vol, hb, ha, hs, hi, hv, rfl⟩ := h
  refine ⟨?_, ?_, ?_, ?_, ?_⟩
  · intro hm
    rw [hm] at hb
    simp only [coerceFloat, Option.some.injEq] at hb
    simp [← hb]
  · intro q hm
    rw [hm] at hb
    simp only [coerceFloat, Option.some.injEq] at hb
    simp [← hb]
  · intro hm
    rw [hm] at ha
    simp only [coerceFloat, Option.some.injEq] at ha
    simp [← ha]
  · intro q hm
    rw [hm] at ha
    simp only [coerceFloat, Option.some.injEq] at ha
    simp [← ha]
  · intro s0 hs0
    rw [hs] at hs0
    simp only [Option.some.injEq] at hs0
    simp [hs0]

theorem parse_rawDefaults : LiveSpreadBot.parse rawDefaults = some mDefaults := by
  rw [parse_eq_some_iff]
  refine ⟨0, 1, 0, ("m2"), 0, rfl, rfl, rfl, rfl, rfl, ?_⟩
  have hmax : max (0 : ℚ) (1 - 0) = 1 := by norm_num [max_def]
  simp [mDefaults, rawDefaults, hmax]

/-- Witness for C6: a record with all quote fields absent parses to bid 0,
ask 1, spread max(0, 1 - 0). -/
theorem parse_quote_defaults_witness :
    LiveSpreadBot.parse rawDefaults = some mDefaults ∧
    mDefaults.best_bid = 0 ∧ mDefaults.best_ask = 1 ∧
    mDefaults.spread = max 0 (mDefaults.best_ask - mDefaults.best_bid) := by
  have h := parse_quote_defaults rawDefaults mDefaults parse_rawDefaults
  exact ⟨parse_rawDefaults, h.1 rfl, h.2.2.1 rfl, h.2.2.2.2 0 rfl⟩

/-- C7: `parse` signals rejection with an explicit `none` on any malformed
record (missing id, or a non-numeric bid/ask/spread/volume field), and
`run_once` skips exactly that record: processing a batch with the malformed
record inserted gives the same store and the same collected alerts as the
batch without it, so every subsequent record is still processed. -/
theorem parse_never_raises (raw : RawRecord) :
    ((raw.id = none ∨ raw.bestBid = RawField.nonNumeric ∨
      raw.bestAsk = RawField.nonNumeric ∨
      raw.spreadField = RawField.nonNumeric ∨
      raw.volumeNum = RawField.nonNumeric) → LiveSpreadBot.parse raw = none) ∧
    (∀ cfg : Config, ∀ now : ℚ, ∀ st : StoreData,
      ∀ pre suf : List RawRecord,
      LiveSpreadBot.parse raw = none →
      List.foldl (LiveSpreadBot.step cfg now) (st, ([] : List (ℚ × Market)))
          (pre ++ raw :: suf) =
        List.foldl (LiveSpreadBot.step cfg now) (st, []) (pre ++ suf)) := by
  constructor
  · intro hbad
    cases hp : LiveSpreadBot.parse raw with
    | none => rfl
    | some m =>
        rw [parse_eq_some_iff] at hp
        obtain ⟨bid, ask, sp, i, vol, hb, ha, hs, hi, hv, _⟩ := hp
        rcases hbad with h | h | h | h | h
        · rw [h] at hi
          simp at hi
        · rw [h] at hb
          simp [coerceFloat] at hb
        · rw [h] at ha
          simp [coerceFloat] at ha
        · rw [h] at hs
          simp [coerceFloat] at hs
        · rw [h] at hv
          simp [coerceFloat] at hv
  · intro cfg now st pre suf hp
    have hstep : ∀ p, LiveSpreadBot.step cfg now p raw = p := by
      intro p
      unfold LiveSpreadBot.step
      rw [hp]
    rw [List.foldl_append, List.foldl_append, List.foldl_cons, hstep]

/-- Witness for C7: the batch [badRaw, goodRaw] (badRaw has no id) produces
exactly what the batch [goodRaw] produces. -/
theorem parse_never_raises_witness :
    LiveSpreadBot.parse badRaw = none ∧
    List.foldl (LiveSpreadBot.step defaultConfig 0)
        (([] : StoreData), ([] : List (ℚ × Market))) ([] ++ badRaw :: [goodRaw]) =
      List.foldl (LiveSpreadBot.step defaultConfig 0) ([], []) ([] ++ [goodRaw]) := by
  have h1 := (parse_never_raises badRaw).1 (Or.inl rfl)
  exact ⟨h1, (parse_never_raises badRaw).2 defaultConfig 0 [] [] [goodRaw] h1⟩

theorem step_eq (cfg : Config) (now : ℚ) (st : StoreData)
    (acc : List (ℚ × Market)) (raw : RawRecord) :
    LiveSpreadBot.step cfg now (st, acc) raw =
      ((match LiveSpreadBot.parse raw with
        | some m => MarketState.update now st m
        | none => st),
       acc ++ (match LiveSpreadBot.parse raw with
        | some m => scoreContrib (isLive cfg st m) m
        | none => [])) := by
  cases hp : LiveSpreadBot.parse raw with
  | none => simp [LiveSpreadBot.step, hp]
  | some m =>
      cases hl : isLive cfg st m with
      | none => simp [LiveSpreadBot.step, hp, hl, scoreContrib]
      | some s =>
          by_cases hs : s = 0 <;>
            simp [LiveSpreadBot.step, hp, hl, scoreContrib, hs]

theorem foldl_step_fst (cfg : Config) (now : ℚ) (raws : List RawRecord) :
    ∀ (st : StoreData) (acc : List (ℚ × Market)),
      (List.foldl (LiveSpreadBot.step cfg now) (st, acc) raws).1 =
        updateAll now st raws := by
  induction raws with
  | nil =>
      intro st acc
      rfl
  | cons raw rest ih =>
      intro st acc
      rw [List.foldl_cons, step_eq]
      show _ = updateAll now st (raw :: rest)
      unfold updateAll
      rw [List.foldl_cons]
      cases hp : LiveSpreadBot.parse raw <;> simp only [hp] <;> exact ih _ _

/-- C2: the per-record loop of `run_once` evaluates every valid observation
against the store as it stood before that record's own update (the result of
all earlier records' updates), and then updates the store for that observation
unconditionally — the final store is the same whether or not the observation
scored. -/
theorem runOnce_eval_prior_then_update (cfg : Config) (now : ℚ)
    (st : StoreData) (pre : List RawRecord) (raw : RawRecord) (m : Market)
    (h : LiveSpreadBot.parse raw = some m) :
    (List.foldl (LiveSpreadBot.step cfg now) (st, []) (pre ++ [raw])).1 =
      MarketState.update now (updateAll now st pre) m ∧
    (List.foldl (LiveSpreadBot.step cfg now) (st, []) (pre ++ [raw])).2 =
      (List.foldl (LiveSpreadBot.step cfg now) (st, []) pre).2 ++
        scoreContrib (isLive cfg (updateAll now st pre) m) m := by
  have hP : List.foldl (LiveSpreadBot.step cfg now) (st, []) (pre ++ [raw]) =
      LiveSpreadBot.step cfg now
        (List.foldl (LiveSpreadBot.step cfg now) (st, []) pre) raw := by
    rw [List.foldl_append, List.foldl_cons, List.foldl_nil]
  have hfst : (List.foldl (LiveSpreadBot.step cfg now) (st, []) pre).1 =
      updateAll now st pre := foldl_step_fst cfg now pre st []
  have hPe : List.foldl (LiveSpreadBot.step cfg now) (st, []) pre =
      ((List.foldl (LiveSpreadBot.step cfg now) (st, []) pre).1,
       (List.foldl (LiveSpreadBot.step cfg now) (st, []) pre).2) := rfl
  rw [hP, hPe, step_eq]
  simp only [h]
  exact ⟨by rw [hfst], by rw [hfst]⟩

theorem parse_goodRaw : LiveSpreadBot.parse goodRaw = some exObs := by
  rw [parse_eq_some_iff]
  refine ⟨3 / 10, 3 / 5, 0, ("m1"), 150000, rfl, rfl, rfl, rfl, rfl, ?_⟩
  have hmax : max (0 : ℚ) (3 / 5 - 3 / 10) = 3 / 10 := by norm_num [max_def]
  simp [exObs, goodRaw, hmax]

/-- Witness for C2: one valid record after an empty prefix, against the
worked example's store. -/
theorem runOnce_eval_prior_then_update_witness :
    (List.foldl (LiveSpreadBot.step defaultConfig 0) (exStore, [])
        ([] ++ [goodRaw])).1 =
      MarketState.update 0 (updateAll 0 exStore []) exObs ∧
    (List.foldl (LiveSpreadBot.step defaultConfig 0) (exStore, [])
        ([] ++ [goodRaw])).2 =
      (List.foldl (LiveSpreadBot.step defaultConfig 0) (exStore, []) []).2 ++
        scoreContrib (isLive defaultConfig (updateAll 0 exStore []) exObs)
          exObs :=
  runOnce_eval_prior_then_update defaultConfig 0 exStore [] goodRaw exObs
    parse_goodRaw

theorem descBySc_trans : ∀ a b c : ℚ × Market,
    decide (b.1 ≤ a.1) = true → decide (c.1 ≤ b.1) = true →
    decide (c.1 ≤ a.1) = true := by
  intro a b c hab hbc
  simp only [decide_eq_true_eq] at *
  exact le_trans hbc hab

theorem descBySc_total : ∀ a b : ℚ × Market,
    (decide (b.1 ≤ a.1) || decide (a.1 ≤ b.1)) = true := by
  intro a b
  simp only [Bool.or_eq_true, decide_eq_true_eq]
  exact le_total b.1 a.1

/-- C5: `run_once` ranks the collected (score, market) pairs by sorting them
descending by score and truncating to `MAX_ALERTS_PER_CYCLE`: the handed-over
list is exactly that prefix, it is sorted highest-score first, it is no longer
than the configured maximum, its members all come from the collected pairs,
every dropped pair scores no higher than any selected one, and the whole
computation is a pure function of the collected pairs, hence identical on
repeated runs over identical input. -/
theorem ranking_sorted_truncated (cfg : Config) (pairs : List (ℚ × Market)) :
    selectAlerts cfg pairs =
      (pairs.mergeSort fun a b => decide (b.1 ≤ a.1)).take
        cfg.MAX_ALERTS_PER_CYCLE ∧
    (pairs.mergeSort fun a b => decide (b.1 ≤ a.1)).Pairwise
      (fun a b => b.1 ≤ a.1) ∧
    (pairs.mergeSort fun a b => decide (b.1 ≤ a.1)).Perm pairs ∧
    (selectAlerts cfg pairs).length ≤ cfg.MAX_ALERTS_PER_CYCLE ∧
    (∀ x ∈ selectAlerts cfg pairs, x ∈ pairs) ∧
    (∀ x ∈ selectAlerts cfg pairs,
      ∀ y ∈ (pairs.mergeSort fun a b => decide (b.1 ≤ a.1)).drop
          cfg.MAX_ALERTS_PER_CYCLE, y.1 ≤ x.1) ∧
    (∀ now st raws, (LiveSpreadBot.runOnce cfg now st raws).2 =
      selectAlerts cfg
        (List.foldl (LiveSpreadBot.step cfg now) (st, []) raws).2) := by
  have hsorted := List.sorted_mergeSort descBySc_trans descBySc_total pairs
  have hsortP : (pairs.mergeSort fun a b => decide (b.1 ≤ a.1)).Pairwise
      (fun a b => b.1 ≤ a.1) :=
    hsorted.imp fun h => of_decide_eq_true h
  have hperm : (pairs.mergeSort fun a b => decide (b.1 ≤ a.1)).Perm pairs :=
    List.mergeSort_perm pairs _
  refine ⟨rfl, hsortP, hperm, ?_, ?_, ?_, fun now st raws => rfl⟩
  · show ((pairs.mergeSort fun a b => decide (b.1 ≤ a.1)).take
        cfg.MAX_ALERTS_PER_CYCLE).length ≤ cfg.MAX_ALERTS_PER_CYCLE
    rw [List.length_take]
    exact min_le_left _ _
  · intro x hx
    exact hperm.mem_iff.mp (List.mem_of_mem_take hx)
  · intro x hx y hy
    have h2 : ((pairs.mergeSort fun a b => decide (b.1 ≤ a.1)).take
          cfg.MAX_ALERTS_PER_CYCLE ++
        (pairs.mergeSort fun a b => decide (b.1 ≤ a.1)).drop
          cfg.MAX_ALERTS_PER_CYCLE).Pairwise (fun a b => b.1 ≤ a.1) := by
      rw [List.take_append_drop]
      exact hsortP
    exact (List.pairwise_append.mp h2).2.2 x hx y hy

/-- Witness for C5: a singleton pair list selects exactly that pair, and it
is among the collected pairs. -/
theorem ranking_sorted_truncated_witness :
    ((2 : ℚ), exObs) ∈ selectAlerts defaultConfig [((2 : ℚ), exObs)] ∧
    ((2 : ℚ), exObs) ∈ ([((2 : ℚ), exObs)] : List (ℚ × Market)) := by
  have hmem : ((2 : ℚ), exObs) ∈ selectAlerts defaultConfig [((2 : ℚ), exObs)] := by
    simp [selectAlerts, defaultConfig]
  exact ⟨hmem,
    (ranking_sorted_truncated defaultConfig [((2 : ℚ), exObs)]).2.2.2.2.1
      ((2 : ℚ), exObs) hmem⟩

theorem mem_scoreContrib {p : ℚ × Market} {o : Option ℚ} {m : Market}
    (h : p ∈ scoreContrib o m) : o = some p.1 ∧ p.1 ≠ 0 ∧ p.2 = m := by
  unfold scoreContrib at h
  cases o with
  | none => simp at h
  | some s =>
      by_cases hs : s = 0
      · simp [hs] at h
      · simp [hs] at h
        subst h
        exact ⟨rfl, hs, rfl⟩

theorem mem_fold_scored (cfg : Config) (now : ℚ) (raws : List RawRecord) :
    ∀ (st : StoreData) (acc : List (ℚ × Market)) (p : ℚ × Market),
      p ∈ (List.foldl (LiveSpreadBot.step cfg now) (st, acc) raws).2 →
      p ∈ acc ∨ ∃ st2, isLive cfg st2 p.2 = some p.1 ∧ p.1 ≠ 0 := by
  induction raws with
  | nil =>
      intro st acc p hp
      exact Or.inl hp
  | cons raw rest ih =>
      intro st acc p hp
      rw [List.foldl_cons, step_eq] at hp
      rcases ih _ _ p hp with hacc | hsc
      · rcases List.mem_append.mp hacc with h | h
        · exact Or.inl h
        · right
          cases hparse : LiveSpreadBot.parse raw with
          | none =>
              rw [hparse] at h
              simp at h
          | some m =>
              rw [hparse] at h
              obtain ⟨ho, hne, hm⟩ := mem_scoreContrib h
              exact ⟨st, by rw [hm]; exact ho, hne⟩
      · exact Or.inr hsc

theorem zero_score_reachable :
    isLive defaultConfig zeroStore exObs = some 0 := by
  have h := isLive_eq_gateEval defaultConfig zeroStore exObs zeroPrev rfl
  have hconj : defaultConfig.MIN_VOLUME_DELTA ≤ exObs.volume - zeroPrev.volume ∧
      defaultConfig.MIN_PRICE_MOVE ≤
        |exObs.best_bid - zeroPrev.best_bid| + |exObs.best_ask - zeroPrev.best_ask| ∧
      defaultConfig.PERSISTENCE_CYCLES ≤ zeroPrev.persistence ∧
      defaultConfig.MIN_VOLUME ≤ exObs.volume ∧
      defaultConfig.MIN_SPREAD ≤ exObs.spread ∧
      exObs.spread ≤ defaultConfig.MAX_SPREAD := by
    refine ⟨by norm_num [defaultConfig, exObs, zeroPrev], ?_,
            by norm_num [defaultConfig, zeroPrev],
            by norm_num [defaultConfig, exObs],
            by norm_num [defaultConfig, exObs],
            by norm_num [defaultConfig, exObs]⟩
    have habs : (0 : ℚ) ≤
        |exObs.best_bid - zeroPrev.best_bid| + |exObs.best_ask - zeroPrev.best_ask| := by
      positivity
    simpa [defaultConfig] using habs
  rw [h, gateEval_pass _ _ _ _ _ _ hconj]
  simp [exObs, zeroPrev]

/-- C10: `run_once` appends an alert only when the score is truthy, so a
market whose computed score is exactly 0 never reaches the alert list — even
though `is_live` does return 0 as a present result when all gates pass with a
zero factor, which is reachable under the default thresholds (for example a
cycle with unchanged volume and quotes); consequently, under the default
configuration every emitted alert has a strictly positive score. -/
theorem alerts_exclude_zero_scores :
    (∀ cfg : Config, ∀ now : ℚ, ∀ st : StoreData, ∀ raws : List RawRecord,
      ∀ p ∈ (LiveSpreadBot.runOnce cfg now st raws).2, p.1 ≠ 0) ∧
    isLive defaultConfig zeroStore exObs = some 0 ∧
    (∀ now : ℚ, ∀ st : StoreData, ∀ raws : List RawRecord,
      ∀ p ∈ (LiveSpreadBot.runOnce defaultConfig now st raws).2, 0 < p.1) := by
  have hmem_pairs : ∀ (cfg : Config) (now : ℚ) (st : StoreData)
      (raws : List RawRecord) (p : ℚ × Market),
      p ∈ (LiveSpreadBot.runOnce cfg now st raws).2 →
      ∃ st2, isLive cfg st2 p.2 = some p.1 ∧ p.1 ≠ 0 := by
    intro cfg now st raws p hp
    simp only [LiveSpreadBot.runOnce, selectAlerts] at hp
    have hp2 : p ∈ (List.foldl (LiveSpreadBot.step cfg now) (st, []) raws).2 :=
      List.mem_mergeSort.mp (List.mem_of_mem_take hp)
    rcases mem_fold_scored cfg now raws st [] p hp2 with h | h
    · simp at h
    · exact h
  refine ⟨?_, zero_score_reachable, ?_⟩
  · intro cfg now st raws p hp
    obtain ⟨st2, _, hne⟩ := hmem_pairs cfg now st raws p hp
    exact hne
  · intro now st raws p hp
    obtain ⟨st2, hlive, hne⟩ := hmem_pairs defaultConfig now st raws p hp
    cases hg : MarketState.get st2 p.2.id with
    | none =>
        have : isLive defaultConfig st2 p.2 = none := by
          unfold isLive
          rw [hg]
        rw [this] at hlive
        exact absurd hlive (by simp)
    | some prev =>
        rw [isLive_eq_gateEval defaultConfig st2 p.2 prev hg] at hlive
        obtain ⟨⟨h1, h2, h3, h4, h5, h6⟩, hval⟩ :=
          gateEval_eq_some _ _ _ _ _ _ _ hlive
        have hvd : 0 ≤ p.2.volume - prev.volume := by
          simpa [defaultConfig] using h1
        have hpm : (0 : ℚ) ≤
            |p.2.best_bid - prev.best_bid| + |p.2.best_ask - prev.best_ask| := by
          positivity
        have hsp : (0 : ℚ) < p.2.spread := by
          have h5b : (5 / 100 : ℚ) ≤ p.2.spread := by
            simpa [defaultConfig] using h5
          linarith
        have hge : 0 ≤ p.1 := by
          rw [hval]
          exact mul_nonneg (mul_nonneg hvd hpm) hsp.le
        exact lt_of_le_of_ne hge (Ne.symm hne)

theorem isLive_worked_example :
    isLive defaultConfig exStore exObs = some 3750 := by
  have h := isLive_eq_gateEval defaultConfig exStore exObs exPrev rfl
  have hconj : defaultConfig.MIN_VOLUME_DELTA ≤ exObs.volume - exPrev.volume ∧
      defaultConfig.MIN_PRICE_MOVE ≤
        |exObs.best_bid - exPrev.best_bid| + |exObs.best_ask - exPrev.best_ask| ∧
      defaultConfig.PERSISTENCE_CYCLES ≤ exPrev.persistence ∧
      defaultConfig.MIN_VOLUME ≤ exObs.volume ∧
      defaultConfig.MIN_SPREAD ≤ exObs.spread ∧
      exObs.spread ≤ defaultConfig.MAX_SPREAD := by
    refine ⟨by norm_num [defaultConfig, exObs, exPrev], ?_,
            by norm_num [defaultConfig, exPrev],
            by norm_num [defaultConfig, exObs],
            by norm_num [defaultConfig, exObs],
            by norm_num [defaultConfig, exObs]⟩
    have habs : (0 : ℚ) ≤
        |exObs.best_bid - exPrev.best_bid| + |exObs.best_ask - exPrev.best_ask| := by
      positivity
    simpa [defaultConfig] using habs
  rw [h, gateEval_pass _ _ _ _ _ _ hconj]
  have e1 : |exObs.best_bid - exPrev.best_bid| = 1 / 10 := by
    rw [show exObs.best_bid - exPrev.best_bid = -(1 / 10) by
      norm_num [exObs, exPrev]]
    rw [abs_neg]
    exact abs_of_nonneg (by norm_num)
  have e2 : |exObs.best_ask - exPrev.best_ask| = 3 / 20 := by
    rw [show exObs.best_ask - exPrev.best_ask = 3 / 20 by
      norm_num [exObs, exPrev]]
    exact abs_of_nonneg (by norm_num)
  rw [e1, e2]
  norm_num [exObs, exPrev]

/-- Witness for C10: a concrete cycle that emits one alert with score 3750;
that score is nonzero and strictly positive. -/
theorem alerts_exclude_zero_scores_witness :
    ((3750 : ℚ), exObs) ∈
        (LiveSpreadBot.runOnce defaultConfig 0 exStore [goodRaw]).2 ∧
    (3750 : ℚ) ≠ 0 ∧ (0 : ℚ) < 3750 := by
  have hpairs : (List.foldl (LiveSpreadBot.step defaultConfig 0)
      (exStore, []) [goodRaw]).2 = [((3750 : ℚ), exObs)] := by
    rw [List.foldl_cons, List.foldl_nil, step_eq]
    simp only [parse_goodRaw, isLive_worked_example, scoreContrib]
    norm_num
  have hrun : (LiveSpreadBot.runOnce defaultConfig 0 exStore [goodRaw]).2 =
      [((3750 : ℚ), exObs)] := by
    simp only [LiveSpreadBot.runOnce]
    rw [hpairs]
    simp [selectAlerts, defaultConfig]
  have hmem : ((3750 : ℚ), exObs) ∈
      (LiveSpreadBot.runOnce defaultConfig 0 exStore [goodRaw]).2 := by
    rw [hrun]
    exact List.mem_singleton_self _
  exact ⟨hmem,
    alerts_exclude_zero_scores.1 defaultConfig 0 exStore [goodRaw] _ hmem,
    alerts_exclude_zero_scores.2.2 0 exStore [goodRaw] _ hmem⟩
